import Mathlib

/-!
Shallow embedding of the `apiClient` Go package (src/apiClient.go) and
verification of its retry/send control flow.

The embedding models the external collaborators of `send` — the JSON
marshaller (`json.Marshal`), transport-request construction
(`http.NewRequest`), the network round trip (`HTTPClient.Do`) and the
body read (`ioutil.ReadAll`) — as an explicit environment `Env` of
(possibly failing) oracles, and records the observable side effects of a
call (marshal invocation, debug log lines, network calls, sleeps,
per-attempt entries of the retry loop) in an effect trace.
-/

set_option maxHeartbeats 1000000

namespace ApiClient

/-- `time.Duration`, in nanoseconds. -/
abbrev Duration := Nat

/-- `Client` struct of src/apiClient.go.  The `HTTPClient *http.Client`
field is represented by its only configured datum, the timeout; the
transport's behaviour itself is an oracle in `Env`. -/
structure Client where
  BaseURL : String
  HTTPClientTimeout : Duration
  Debug : Bool
  MaxRetries : Int
  RetryDelay : Duration
deriving DecidableEq, Repr

/-- `NewClient` of src/apiClient.go: sets a 10-second transport timeout. -/
def NewClient (baseURL : String) (debug : Bool) (maxRetries : Int) (retryDelay : Duration) : Client :=
  { BaseURL := baseURL
    HTTPClientTimeout := 10000000000
    Debug := debug
    MaxRetries := maxRetries
    RetryDelay := retryDelay }

/-- `APIRequest` struct.  `Body interface{}` is an opaque Go value whose
marshalling outcome the environment decides; `none` models a nil body. -/
structure APIRequest where
  Method : String
  Endpoint : String
  Headers : List (String × String)
  Body : Option String
deriving DecidableEq, Repr

/-- `APIResponse` struct. -/
structure APIResponse where
  StatusCode : Int
  Headers : List (String × List String)
  Body : List Nat
deriving DecidableEq, Repr

/-- Go `error` values produced by the four fallible collaborators.  The
constructor only records provenance and a message; the retry loop never
inspects it. -/
inductive GoError where
  | marshalErr (msg : String)
  | newRequestErr (msg : String)
  | transportErr (msg : String)
  | readErr (msg : String)
deriving DecidableEq, Repr

/-- The `*http.Request` built by `send` (method, URL, headers, body). -/
structure HttpRequest where
  Method : String
  URL : String
  Header : List (String × String)
  Body : List Nat
deriving DecidableEq, Repr

/-- The `*http.Response` returned by the transport; its body stream is
read through `Env.readAll`. -/
structure HttpResponse where
  StatusCode : Int
  Status : String
  Header : List (String × List String)
deriving DecidableEq, Repr

/-- Environment of one single-attempt `send`: outcomes of the four
external operations. -/
structure Env where
  marshal : String → Except GoError (List Nat)
  newRequestCheck : String → String → Option GoError
  doReq : HttpRequest → Except GoError HttpResponse
  readAll : HttpResponse → Except GoError (List Nat)

/-- Observable side effects of `send` / `SendRequest`. -/
inductive Effect where
  | marshalCall
  | logRequest (method url : String) (headers : List (String × String)) (body : List Nat)
  | netCall (r : HttpRequest)
  | logResponse (status : String) (headers : List (String × List String)) (body : List Nat)
  | sleep (d : Duration)
  | attemptCall
deriving DecidableEq, Repr

/-- Result of a call: the Go `(\*APIResponse, error)` pair, the effect
trace, and the client state at return (the methods never assign to any
field, so every return site yields the receiver unchanged). -/
structure SendOut where
  resp : Option APIResponse
  err : Option GoError
  trace : List Effect
  client : Client
deriving DecidableEq, Repr

/-- `request.Header.Set(key, value)`: replace an existing entry for the
key or append a new one. -/
def setHeader (hs : List (String × String)) (k v : String) : List (String × String) :=
  if hs.any (fun p => p.1 = k) then
    hs.map (fun p => if p.1 = k then (k, v) else p)
  else
    hs ++ [(k, v)]

/-- The `for key, value := range req.Headers { request.Header.Set(key, value) }` loop. -/
def setHeaders (hs : List (String × String)) (kvs : List (String × String)) : List (String × String) :=
  kvs.foldl (fun acc kv => setHeader acc kv.1 kv.2) hs

/-- Lines 86-93 of src/apiClient.go: `reqBody` stays nil (empty) when
`req.Body == nil`, otherwise it is `json.Marshal(req.Body)`. -/
def marshalStep (req : APIRequest) (env : Env) : Except GoError (List Nat) :=
  match req.Body with
  | none => Except.ok []
  | some b => env.marshal b

/-- Trace contribution of the marshalling step: `json.Marshal` is invoked
iff `req.Body != nil`. -/
def sendTrace0 (req : APIRequest) : List Effect :=
  match req.Body with
  | none => []
  | some _ => [Effect.marshalCall]

/-- The `*http.Request` built by `http.NewRequest` plus the header loop:
method, URL `fmt.Sprintf("%s%s", c.BaseURL, req.Endpoint)` (plain
concatenation), headers set onto an empty header map, marshalled body. -/
def buildRequest (c : Client) (req : APIRequest) (reqBody : List Nat) : HttpRequest :=
  { Method := req.Method
    URL := c.BaseURL ++ req.Endpoint
    Header := setHeaders [] req.Headers
    Body := reqBody }

/-- `if c.Debug { ... }` guard around a log line. -/
def debugTrace (d : Bool) (e : Effect) : List Effect :=
  if d then [e] else []

/-- `send` of src/apiClient.go (lines 83-130), one attempt:
marshal the body (if non-nil), construct the transport request, set the
headers, optionally log the request, perform the round trip, read the
body, optionally log the response, and assemble the `APIResponse`.
Each `return nil, err` site yields `(none, some err)`. -/
def Client.send (c : Client) (req : APIRequest) (env : Env) : SendOut :=
  match marshalStep req env with
  | .error e => ⟨none, some e, sendTrace0 req, c⟩
  | .ok reqBody =>
    match env.newRequestCheck req.Method (c.BaseURL ++ req.Endpoint) with
    | some e => ⟨none, some e, sendTrace0 req, c⟩
    | none =>
      match env.doReq (buildRequest c req reqBody) with
      | .error e =>
        ⟨none, some e,
          sendTrace0 req
            ++ debugTrace c.Debug
                 (Effect.logRequest req.Method (c.BaseURL ++ req.Endpoint) (setHeaders [] req.Headers) reqBody)
            ++ [Effect.netCall (buildRequest c req reqBody)], c⟩
      | .ok response =>
        match env.readAll response with
        | .error e =>
          ⟨none, some e,
            sendTrace0 req
              ++ debugTrace c.Debug
                   (Effect.logRequest req.Method (c.BaseURL ++ req.Endpoint) (setHeaders [] req.Headers) reqBody)
              ++ [Effect.netCall (buildRequest c req reqBody)], c⟩
        | .ok respBody =>
          ⟨some ⟨response.StatusCode, response.Header, respBody⟩, none,
            sendTrace0 req
              ++ debugTrace c.Debug
                   (Effect.logRequest req.Method (c.BaseURL ++ req.Endpoint) (setHeaders [] req.Headers) reqBody)
              ++ [Effect.netCall (buildRequest c req reqBody)]
              ++ debugTrace c.Debug (Effect.logResponse response.Status response.Header respBody), c⟩

/-- The retry loop body of `SendRequest` (lines 64-77), by fuel:
`fuel` is the number of loop iterations still permitted, `attempt` the
Go loop counter, `response`/`err` the two mutable locals.  On success the
loop returns immediately; on failure it sleeps `c.RetryDelay`
(unconditionally — the `time.Sleep` is the last statement of the loop
body) and continues.  The environment may differ per attempt index,
modelling a server whose behaviour changes between attempts. -/
def sendRequestAux (c : Client) (req : APIRequest) (envs : Nat → Env) :
    Nat → Nat → Option APIResponse → Option GoError → SendOut
  | _, 0, response, err => ⟨response, err, [], c⟩
  | attempt, fuel+1, _, _ =>
    match (c.send req (envs attempt)).err with
    | none =>
      ⟨(c.send req (envs attempt)).resp, none,
        Effect.attemptCall :: (c.send req (envs attempt)).trace, c⟩
    | some e =>
      let rest := sendRequestAux c req envs (attempt+1) fuel (c.send req (envs attempt)).resp (some e)
      ⟨rest.resp, rest.err,
        Effect.attemptCall ::
          ((c.send req (envs attempt)).trace ++ Effect.sleep c.RetryDelay :: rest.trace), c⟩

/-- Number of iterations of `for attempt := 0; attempt <= c.MaxRetries; attempt++`
when no early return occurs: `maxRetries + 1` clamped at zero. -/
def iterCount (m : Int) : Nat := (m + 1).toNat

/-- `SendRequest` of src/apiClient.go (lines 64-77). -/
def Client.SendRequest (c : Client) (req : APIRequest) (envs : Nat → Env) : SendOut :=
  sendRequestAux c req envs 0 (iterCount c.MaxRetries) none none

/-- Recogniser for per-attempt markers of the retry loop. -/
def isAttempt : Effect → Bool
  | .attemptCall => true
  | _ => false

/-- Number of `send` calls recorded in a trace. -/
def countAttempts (t : List Effect) : Nat := t.countP isAttempt

/-- Recogniser for `time.Sleep` events. -/
def isSleep : Effect → Bool
  | .sleep _ => true
  | _ => false

/-- Number of `time.Sleep` calls recorded in a trace. -/
def countSleeps (t : List Effect) : Nat := t.countP isSleep

/-- Recogniser for diagnostic-output events (`logRequest` / `logResponse`). -/
def isLogEffect : Effect → Bool
  | .logRequest _ _ _ _ => true
  | .logResponse _ _ _ => true
  | _ => false

/-- Recogniser for network-call events. -/
def isNetCall : Effect → Bool
  | .netCall _ => true
  | _ => false

/-! ### Helper lemmas about a single `send` -/

/-- Every effect of a single `send` is a marshal invocation, a debug log
line (possible only when `c.Debug` is set), or a network call whose URL
is the plain concatenation of base URL and endpoint. -/
theorem send_trace_mem (c : Client) (req : APIRequest) (env : Env) :
    ∀ x ∈ (c.send req env).trace,
      x = Effect.marshalCall ∨
      (isLogEffect x = true ∧ c.Debug = true) ∨
      ∃ r, x = Effect.netCall r ∧ r.URL = c.BaseURL ++ req.Endpoint := by
  intro x hx
  have htr0 : ∀ y ∈ sendTrace0 req, y = Effect.marshalCall := by
    intro y hy
    unfold sendTrace0 at hy
    rcases hB : req.Body with _ | b
    · simp [hB] at hy
    · simp [hB] at hy
      simp [hy]
  have hdt : ∀ (e : Effect) (y : Effect), y ∈ debugTrace c.Debug e →
      y = e ∧ c.Debug = true := by
    intro e y hy
    unfold debugTrace at hy
    cases hD : c.Debug
    · simp [hD] at hy
    · simp [hD] at hy
      simp [hy, hD]
  unfold Client.send at hx
  split at hx
  · exact Or.inl (htr0 x hx)
  · split at hx
    · exact Or.inl (htr0 x hx)
    · split at hx
      · simp only [SendOut.mk.injEq] at hx
        rcases List.mem_append.mp hx with h1 | h2
        · rcases List.mem_append.mp h1 with h3 | h4
          · exact Or.inl (htr0 x h3)
          · rcases hdt _ _ h4 with ⟨hxe, hD⟩
            exact Or.inr (Or.inl ⟨by simp [hxe, isLogEffect], hD⟩)
        · simp at h2
          exact Or.inr (Or.inr ⟨_, h2, rfl⟩)
      · split at hx
        · simp only [SendOut.mk.injEq] at hx
          rcases List.mem_append.mp hx with h1 | h2
          · rcases List.mem_append.mp h1 with h3 | h4
            · exact Or.inl (htr0 x h3)
            · rcases hdt _ _ h4 with ⟨hxe, hD⟩
              exact Or.inr (Or.inl ⟨by simp [hxe, isLogEffect], hD⟩)
          · simp at h2
            exact Or.inr (Or.inr ⟨_, h2, rfl⟩)
        · simp only [SendOut.mk.injEq] at hx
          rcases List.mem_append.mp hx with h1 | h2
          · rcases List.mem_append.mp h1 with h3 | h4
            · rcases List.mem_append.mp h3 with h5 | h6
              · exact Or.inl (htr0 x h5)
              · rcases hdt _ _ h6 with ⟨hxe, hD⟩
                exact Or.inr (Or.inl ⟨by simp [hxe, isLogEffect], hD⟩)
            · simp at h4
              exact Or.inr (Or.inr ⟨_, h4, rfl⟩)
          · rcases hdt _ _ h2 with ⟨hxe, hD⟩
            exact Or.inr (Or.inl ⟨by simp [hxe, isLogEffect], hD⟩)

/-- A single `send` records no `attemptCall` marker. -/
theorem send_count_attempt (c : Client) (req : APIRequest) (env : Env) :
    countAttempts (c.send req env).trace = 0 := by
  unfold countAttempts
  rw [List.countP_eq_zero]
  intro x hx
  rcases send_trace_mem c req env _ hx with h1 | ⟨h2, _⟩ | ⟨r, h3, _⟩
  · simp [h1, isAttempt]
  · cases x <;> simp_all [isLogEffect, isAttempt]
  · simp [h3, isAttempt]

/-- A single `send` never sleeps. -/
theorem send_count_sleep (c : Client) (req : APIRequest) (env : Env) :
    countSleeps (c.send req env).trace = 0 := by
  unfold countSleeps
  rw [List.countP_eq_zero]
  intro x hx
  rcases send_trace_mem c req env _ hx with h1 | ⟨h2, _⟩ | ⟨r, h3, _⟩
  · simp [h1, isSleep]
  · cases x <;> simp_all [isLogEffect, isSleep]
  · simp [h3, isSleep]

/-- `send` never assigns to any field of the receiver. -/
theorem send_client_eq (c : Client) (req : APIRequest) (env : Env) :
    (c.send req env).client = c := by
  unfold Client.send
  split <;> try rfl
  split <;> try rfl
  split <;> try rfl
  split <;> rfl

/-- With debug disabled, a single `send` emits no log effect. -/
theorem send_no_logs (c : Client) (req : APIRequest) (env : Env) (hD : c.Debug = false) :
    ∀ x ∈ (c.send req env).trace, isLogEffect x = false := by
  intro x hx
  rcases send_trace_mem c req env x hx with h1 | ⟨_, hd⟩ | ⟨r, h3, _⟩
  · simp [h1, isLogEffect]
  · simp [hD] at hd
  · simp [h3, isLogEffect]

/-- Elements of a `debugTrace` list are the guarded effect itself. -/
theorem debugTrace_mem (d : Bool) (e y : Effect) (hy : y ∈ debugTrace d e) : y = e := by
  cases d
  · simp [debugTrace] at hy
  · simp [debugTrace] at hy
    exact hy

/-- The trace of a single `send` is the marshal-step trace followed by
log lines and network calls only. -/
theorem send_trace_decomp (c : Client) (req : APIRequest) (env : Env) :
    ∃ rest, (c.send req env).trace = sendTrace0 req ++ rest ∧
      ∀ x ∈ rest, isLogEffect x = true ∨ isNetCall x = true := by
  rcases hm : marshalStep req env with e | rb
  · exact ⟨[], by simp [Client.send, hm], by simp⟩
  · rcases hn : env.newRequestCheck req.Method (c.BaseURL ++ req.Endpoint) with _ | e
    · rcases hd : env.doReq (buildRequest c req rb) with e | resp
      · refine ⟨debugTrace c.Debug
            (Effect.logRequest req.Method (c.BaseURL ++ req.Endpoint) (setHeaders [] req.Headers) rb)
            ++ [Effect.netCall (buildRequest c req rb)],
          by simp [Client.send, hm, hn, hd], ?_⟩
        intro x hx
        rcases List.mem_append.mp hx with h1 | h2
        · rw [debugTrace_mem _ _ _ h1]
          simp [isLogEffect]
        · simp at h2
          simp [h2, isNetCall]
      · rcases hr : env.readAll resp with e | body
        · refine ⟨debugTrace c.Debug
              (Effect.logRequest req.Method (c.BaseURL ++ req.Endpoint) (setHeaders [] req.Headers) rb)
              ++ [Effect.netCall (buildRequest c req rb)],
            by simp [Client.send, hm, hn, hd, hr], ?_⟩
          intro x hx
          rcases List.mem_append.mp hx with h1 | h2
          · rw [debugTrace_mem _ _ _ h1]
            simp [isLogEffect]
          · simp at h2
            simp [h2, isNetCall]
        · refine ⟨debugTrace c.Debug
              (Effect.logRequest req.Method (c.BaseURL ++ req.Endpoint) (setHeaders [] req.Headers) rb)
              ++ [Effect.netCall (buildRequest c req rb)]
              ++ debugTrace c.Debug (Effect.logResponse resp.Status resp.Header body),
            by simp [Client.send, hm, hn, hd, hr], ?_⟩
          intro x hx
          rcases List.mem_append.mp hx with h1 | h2
          · rcases List.mem_append.mp h1 with h3 | h4
            · rw [debugTrace_mem _ _ _ h3]
              simp [isLogEffect]
            · simp at h4
              simp [h4, isNetCall]
          · rw [debugTrace_mem _ _ _ h2]
            simp [isLogEffect]
    · exact ⟨[], by simp [Client.send, hm, hn], by simp⟩

/-- `json.Marshal` is invoked during `send` iff `req.Body != nil`. -/
theorem send_marshalCall_iff (c : Client) (req : APIRequest) (env : Env) :
    Effect.marshalCall ∈ (c.send req env).trace ↔ req.Body.isSome = true := by
  rcases send_trace_decomp c req env with ⟨rest, hT, hrest⟩
  rw [hT, List.mem_append]
  constructor
  · rintro (h1 | h2)
    · unfold sendTrace0 at h1
      rcases hB : req.Body with _ | b
      · rw [hB] at h1
        simp at h1
      · simp [hB]
    · rcases hrest _ h2 with h | h <;> simp [isLogEffect, isNetCall] at h
  · intro h
    left
    unfold sendTrace0
    rcases hB : req.Body with _ | b
    · rw [hB] at h
      simp at h
    · simp

/-- When the marshalling step fails, `send` returns `(nil, err)` at once:
no transport request is consulted, no log line and no network call is
emitted, and the trace is exactly the marshal invocation. -/
theorem send_marshal_error (c : Client) (req : APIRequest) (env : Env) (e : GoError)
    (hm : marshalStep req env = .error e) :
    c.send req env = ⟨none, some e, [Effect.marshalCall], c⟩ := by
  rcases hB : req.Body with _ | b
  · exfalso
    unfold marshalStep at hm
    rw [hB] at hm
    simp at hm
  · unfold Client.send
    rw [hm]
    unfold sendTrace0
    rw [hB]

/-- When all four external steps succeed, `send` returns the populated
`APIResponse` with a nil error — the status code is never inspected. -/
theorem send_success_eq (c : Client) (req : APIRequest) (env : Env)
    (rb : List Nat) (resp : HttpResponse) (body : List Nat)
    (hm : marshalStep req env = .ok rb)
    (hn : env.newRequestCheck req.Method (c.BaseURL ++ req.Endpoint) = none)
    (hd : env.doReq (buildRequest c req rb) = .ok resp)
    (hr : env.readAll resp = .ok body) :
    (c.send req env).err = none ∧
    (c.send req env).resp = some ⟨resp.StatusCode, resp.Header, body⟩ := by
  simp only [Client.send, hm, hn, hd, hr]
  exact ⟨trivial, trivial⟩

/-! ### Counting lemmas over trace shapes -/

/-- Attempt count of a failed-iteration trace. -/
theorem countAttempts_fail_shape (S R : List Effect) (d : Duration) :
    countAttempts (Effect.attemptCall :: (S ++ Effect.sleep d :: R)) =
      1 + countAttempts S + countAttempts R := by
  simp [countAttempts, List.countP_cons, List.countP_append, isAttempt]
  omega

/-- Sleep count of a failed-iteration trace. -/
theorem countSleeps_fail_shape (S R : List Effect) (d : Duration) :
    countSleeps (Effect.attemptCall :: (S ++ Effect.sleep d :: R)) =
      countSleeps S + 1 + countSleeps R := by
  simp [countSleeps, List.countP_cons, List.countP_append, isSleep]
  omega

/-- Attempt count of a successful-iteration trace. -/
theorem countAttempts_succ_shape (S : List Effect) :
    countAttempts (Effect.attemptCall :: S) = 1 + countAttempts S := by
  simp [countAttempts, List.countP_cons, isAttempt]
  omega

/-- Sleep count of a successful-iteration trace. -/
theorem countSleeps_succ_shape (S : List Effect) :
    countSleeps (Effect.attemptCall :: S) = countSleeps S := by
  simp [countSleeps, List.countP_cons, isSleep]

/-! ### Behaviour of the retry loop -/

/-- Exhausted fuel returns the current locals. -/
theorem sendRequestAux_zero (c : Client) (req : APIRequest) (envs : Nat → Env)
    (attempt : Nat) (r : Option APIResponse) (e : Option GoError) :
    sendRequestAux c req envs attempt 0 r e = ⟨r, e, [], c⟩ := rfl

/-- One successful iteration: the loop returns immediately. -/
theorem sendRequestAux_succ_step (c : Client) (req : APIRequest) (envs : Nat → Env)
    (attempt fuel : Nat) (r : Option APIResponse) (e : Option GoError)
    (herr : (c.send req (envs attempt)).err = none) :
    sendRequestAux c req envs attempt (fuel+1) r e =
      ⟨(c.send req (envs attempt)).resp, none,
        Effect.attemptCall :: (c.send req (envs attempt)).trace, c⟩ := by
  simp only [sendRequestAux, herr]

/-- One failed iteration: the loop records the attempt, sleeps, and
continues with the failed attempt's `(response, err)` pair as the new
locals. -/
theorem sendRequestAux_fail_step (c : Client) (req : APIRequest) (envs : Nat → Env)
    (attempt fuel : Nat) (r : Option APIResponse) (e : Option GoError) (e' : GoError)
    (herr : (c.send req (envs attempt)).err = some e') :
    sendRequestAux c req envs attempt (fuel+1) r e =
      ⟨(sendRequestAux c req envs (attempt+1) fuel (c.send req (envs attempt)).resp (some e')).resp,
       (sendRequestAux c req envs (attempt+1) fuel (c.send req (envs attempt)).resp (some e')).err,
       Effect.attemptCall :: ((c.send req (envs attempt)).trace ++
         Effect.sleep c.RetryDelay ::
           (sendRequestAux c req envs (attempt+1) fuel (c.send req (envs attempt)).resp (some e')).trace),
       c⟩ := by
  simp only [sendRequestAux, herr]

/-- If every remaining attempt fails, the loop performs them all, then
returns the last attempt's `(response, err)` pair; each of the `n+1`
iterations sleeps once — the final one included. -/
theorem aux_all_fail (c : Client) (req : APIRequest) (envs : Nat → Env) :
    ∀ (n attempt : Nat) (r : Option APIResponse) (e : Option GoError),
      (∀ j, j ≤ n → ((c.send req (envs (attempt + j))).err).isSome = true) →
      (sendRequestAux c req envs attempt (n+1) r e).resp = (c.send req (envs (attempt + n))).resp ∧
      (sendRequestAux c req envs attempt (n+1) r e).err = (c.send req (envs (attempt + n))).err ∧
      countAttempts (sendRequestAux c req envs attempt (n+1) r e).trace = n + 1 ∧
      countSleeps (sendRequestAux c req envs attempt (n+1) r e).trace = n + 1 := by
  intro n
  induction n with
  | zero =>
    intro attempt r e hfail
    have h0 := hfail 0 (Nat.le_refl 0)
    rw [Nat.add_zero] at h0
    simp only [Nat.add_zero]
    cases herr : (c.send req (envs attempt)).err with
    | none =>
      rw [herr] at h0
      simp at h0
    | some e' =>
      rw [sendRequestAux_fail_step c req envs attempt 0 r e e' herr]
      simp only [sendRequestAux_zero]
      refine ⟨trivial, trivial, ?_, ?_⟩
      · rw [countAttempts_fail_shape, send_count_attempt]
        rfl
      · rw [countSleeps_fail_shape, send_count_sleep]
        rfl
  | succ n ih =>
    intro attempt r e hfail
    have h0 := hfail 0 (Nat.zero_le _)
    rw [Nat.add_zero] at h0
    cases herr : (c.send req (envs attempt)).err with
    | none =>
      rw [herr] at h0
      simp at h0
    | some e' =>
      have hshift : ∀ j, j ≤ n → ((c.send req (envs (attempt + 1 + j))).err).isSome = true := by
        intro j hj
        have := hfail (j+1) (by omega)
        rwa [show attempt + (j+1) = attempt + 1 + j by omega] at this
      have hih := ih (attempt + 1) (c.send req (envs attempt)).resp (some e') hshift
      rw [sendRequestAux_fail_step c req envs attempt (n+1) r e e' herr]
      rw [show attempt + (n+1) = attempt + 1 + n by omega]
      refine ⟨hih.1, hih.2.1, ?_, ?_⟩
      · rw [countAttempts_fail_shape, send_count_attempt, hih.2.2.1]
        omega
      · rw [countSleeps_fail_shape, send_count_sleep, hih.2.2.2]
        omega

/-- If attempt `k` (0-indexed) is the first to succeed and the loop has
fuel to reach it, the loop stops there: it returns that attempt's
response with a nil error after `k+1` attempts and `k` sleeps, and never
sleeps after the successful attempt. -/
theorem aux_first_success (c : Client) (req : APIRequest) (envs : Nat → Env) :
    ∀ (k fuel attempt : Nat) (r : Option APIResponse) (e : Option GoError),
      k < fuel →
      (∀ j, j < k → ((c.send req (envs (attempt + j))).err).isSome = true) →
      (c.send req (envs (attempt + k))).err = none →
      (sendRequestAux c req envs attempt fuel r e).resp = (c.send req (envs (attempt + k))).resp ∧
      (sendRequestAux c req envs attempt fuel r e).err = none ∧
      countAttempts (sendRequestAux c req envs attempt fuel r e).trace = k + 1 ∧
      countSleeps (sendRequestAux c req envs attempt fuel r e).trace = k := by
  intro k
  induction k with
  | zero =>
    intro fuel attempt r e hk hfail hsucc
    rw [Nat.add_zero] at hsucc
    simp only [Nat.add_zero]
    cases fuel with
    | zero => omega
    | succ f =>
      rw [sendRequestAux_succ_step c req envs attempt f r e hsucc]
      refine ⟨rfl, rfl, ?_, ?_⟩
      · rw [countAttempts_succ_shape, send_count_attempt]
      · rw [countSleeps_succ_shape, send_count_sleep]
  | succ k ih =>
    intro fuel attempt r e hk hfail hsucc
    cases fuel with
    | zero => omega
    | succ f =>
      have h0 := hfail 0 (by omega)
      rw [Nat.add_zero] at h0
      cases herr : (c.send req (envs attempt)).err with
      | none =>
        rw [herr] at h0
        simp at h0
      | some e' =>
        have hih := ih f (attempt + 1) (c.send req (envs attempt)).resp (some e')
          (by omega)
          (by
            intro j hj
            have := hfail (j+1) (by omega)
            rwa [show attempt + (j+1) = attempt + 1 + j by omega] at this)
          (by rwa [show attempt + 1 + k = attempt + (k+1) by omega])
        rw [sendRequestAux_fail_step c req envs attempt f r e e' herr]
        rw [show attempt + (k+1) = attempt + 1 + k by omega]
        refine ⟨hih.1, hih.2.1, ?_, ?_⟩
        · rw [countAttempts_fail_shape, send_count_attempt, hih.2.2.1]
          omega
        · rw [countSleeps_fail_shape, send_count_sleep, hih.2.2.2]
          omega

/-- The retry loop never assigns to any field of the receiver. -/
theorem aux_client_eq (c : Client) (req : APIRequest) (envs : Nat → Env) :
    ∀ (fuel attempt : Nat) (r : Option APIResponse) (e : Option GoError),
      (sendRequestAux c req envs attempt fuel r e).client = c := by
  intro fuel
  induction fuel with
  | zero => intro attempt r e; rfl
  | succ f ih =>
    intro attempt r e
    cases herr : (c.send req (envs attempt)).err with
    | none => simp [sendRequestAux, herr]
    | some e' => simp [sendRequestAux, herr]

/-- With debug disabled, no iteration of the retry loop emits a log
effect. -/
theorem aux_no_logs (c : Client) (req : APIRequest) (envs : Nat → Env)
    (hD : c.Debug = false) :
    ∀ (fuel attempt : Nat) (r : Option APIResponse) (e : Option GoError),
      ∀ x ∈ (sendRequestAux c req envs attempt fuel r e).trace, isLogEffect x = false := by
  intro fuel
  induction fuel with
  | zero =>
    intro attempt r e x hx
    simp [sendRequestAux_zero] at hx
  | succ f ih =>
    intro attempt r e x hx
    cases herr : (c.send req (envs attempt)).err with
    | none =>
      simp only [sendRequestAux, herr] at hx
      rcases List.mem_cons.mp hx with h1 | h2
      · simp [h1, isLogEffect]
      · exact send_no_logs c req _ hD x h2
    | some e' =>
      simp only [sendRequestAux, herr] at hx
      rcases List.mem_cons.mp hx with h1 | h2
      · simp [h1, isLogEffect]
      · rcases List.mem_append.mp h2 with h3 | h4
        · exact send_no_logs c req _ hD x h3
        · rcases List.mem_cons.mp h4 with h5 | h6
          · simp [h5, isLogEffect]
          · exact ih (attempt + 1) _ _ x h6

/-- The loop's attempt and sleep counts depend only on the
success/failure pattern of the attempts, never on which error occurred. -/
theorem aux_error_blind (c : Client) (req : APIRequest) (envs envs2 : Nat → Env)
    (hsame : ∀ k, ((c.send req (envs k)).err).isSome = ((c.send req (envs2 k)).err).isSome) :
    ∀ (fuel attempt : Nat) (r1 : Option APIResponse) (e1 : Option GoError)
      (r2 : Option APIResponse) (e2 : Option GoError),
      countAttempts (sendRequestAux c req envs attempt fuel r1 e1).trace =
        countAttempts (sendRequestAux c req envs2 attempt fuel r2 e2).trace ∧
      countSleeps (sendRequestAux c req envs attempt fuel r1 e1).trace =
        countSleeps (sendRequestAux c req envs2 attempt fuel r2 e2).trace := by
  intro fuel
  induction fuel with
  | zero => intro attempt r1 e1 r2 e2; exact ⟨rfl, rfl⟩
  | succ f ih =>
    intro attempt r1 e1 r2 e2
    have hs := hsame attempt
    cases herr : (c.send req (envs attempt)).err with
    | none =>
      have herr2 : (c.send req (envs2 attempt)).err = none := by
        rw [herr] at hs
        simp only [Option.isSome_none] at hs
        exact Option.not_isSome_iff_eq_none.mp (by rw [← hs]; simp)
      simp only [sendRequestAux, herr, herr2]
      constructor
      · rw [countAttempts_succ_shape, countAttempts_succ_shape,
          send_count_attempt, send_count_attempt]
      · rw [countSleeps_succ_shape, countSleeps_succ_shape,
          send_count_sleep, send_count_sleep]
    | some e' =>
      have herr2 : ∃ e2', (c.send req (envs2 attempt)).err = some e2' := by
        rw [herr] at hs
        simp only [Option.isSome_some] at hs
        exact Option.isSome_iff_exists.mp hs.symm
      rcases herr2 with ⟨e2', herr2⟩
      have hih := ih (attempt + 1) (c.send req (envs attempt)).resp (some e')
        (c.send req (envs2 attempt)).resp (some e2')
      simp only [sendRequestAux, herr, herr2]
      constructor
      · rw [countAttempts_fail_shape, countAttempts_fail_shape,
          send_count_attempt, send_count_attempt, hih.1]
      · rw [countSleeps_fail_shape, countSleeps_fail_shape,
          send_count_sleep, send_count_sleep, hih.2]

/-! ### Concrete environments and inputs used by witnesses -/

/-- A transport that always fails the round trip. -/
def failEnv : Env :=
  { marshal := fun _ => .ok []
    newRequestCheck := fun _ _ => none
    doReq := fun _ => .error (.transportErr "connection refused")
    readAll := fun _ => .ok [] }

/-- A reachable server answering HTTP 500 with body bytes `[104, 105]`. -/
def okEnv : Env :=
  { marshal := fun _ => .ok []
    newRequestCheck := fun _ _ => none
    doReq := fun _ => .ok ⟨500, "500 Internal Server Error", []⟩
    readAll := fun _ => .ok [104, 105] }

/-- An environment whose JSON marshaller always fails. -/
def badMarshalEnv : Env :=
  { marshal := fun _ => .error (.marshalErr "unsupported type")
    newRequestCheck := fun _ _ => none
    doReq := fun _ => .error (.transportErr "unreachable")
    readAll := fun _ => .ok [] }

/-- A GET request with nil body. -/
def reqW : APIRequest := ⟨"GET", "/x", [], none⟩

/-- A POST request with a non-nil body. -/
def reqB : APIRequest := ⟨"POST", "/x", [], some "x"⟩

/-- Per-attempt environments: the first attempt fails, later ones succeed. -/
def mixedEnvs : Nat → Env := fun n => if n = 0 then failEnv else okEnv

/-! ### Claims -/

/-- Claim C1: for every `maxRetries = N ≥ 0`, if every single-attempt
`send` fails, `SendRequest` performs exactly `N+1` calls to `send` and
returns the last attempt's response (nil here, since a failing `send`
returns a nil response) and the last attempt's error. -/
theorem claim1_all_fail_attempts (c : Client) (req : APIRequest) (envs : Nat → Env) (N : Nat)
    (hN : c.MaxRetries = (N : Int))
    (hfail : ∀ k, k ≤ N → ((c.send req (envs k)).err).isSome = true) :
    countAttempts (c.SendRequest req envs).trace = N + 1 ∧
    (c.SendRequest req envs).resp = (c.send req (envs N)).resp ∧
    (c.SendRequest req envs).err = (c.send req (envs N)).err := by
  have hiter : iterCount c.MaxRetries = N + 1 := by
    unfold iterCount
    rw [hN]
    omega
  unfold Client.SendRequest
  rw [hiter]
  have h := aux_all_fail c req envs N 0 none none
    (by intro j hj; rw [Nat.zero_add]; exact hfail j hj)
  rw [Nat.zero_add] at h
  exact ⟨h.2.2.1, h.1, h.2.1⟩

/-- Witness for C1 at `maxRetries = 1` and an always-failing transport. -/
theorem claim1_witness :
    countAttempts ((NewClient "http://a" false 1 7).SendRequest reqW (fun _ => failEnv)).trace = 1 + 1 ∧
    ((NewClient "http://a" false 1 7).SendRequest reqW (fun _ => failEnv)).resp =
      ((NewClient "http://a" false 1 7).send reqW failEnv).resp ∧
    ((NewClient "http://a" false 1 7).SendRequest reqW (fun _ => failEnv)).err =
      ((NewClient "http://a" false 1 7).send reqW failEnv).err :=
  claim1_all_fail_attempts (NewClient "http://a" false 1 7) reqW (fun _ => failEnv) 1 rfl
    (fun _ _ =>
      (by decide : (((NewClient "http://a" false 1 7).send reqW failEnv).err).isSome = true))

/-- Claim C2 (counterexample): with `maxRetries = 0` and one failed
attempt, the code executes one sleep, not the zero sleeps the claim's
"N failed attempts, N-1 sleeps" rule predicts: the `time.Sleep` is not
guarded by "more attempts remain". -/
theorem claim2_counterexample :
    countAttempts ((NewClient "http://a" false 0 5).SendRequest reqW (fun _ => failEnv)).trace = 1 ∧
    countSleeps ((NewClient "http://a" false 0 5).SendRequest reqW (fun _ => failEnv)).trace = 1 ∧
    countSleeps ((NewClient "http://a" false 0 5).SendRequest reqW (fun _ => failEnv)).trace ≠
      countAttempts ((NewClient "http://a" false 0 5).SendRequest reqW (fun _ => failEnv)).trace - 1 := by
  decide

/-- Claim C2 (amended): the retry sleep runs after every failed attempt,
including the final one, so a run whose `N+1` attempts all fail performs
exactly `N+1` sleeps (one per failed attempt), not `N`. -/
theorem claim2_sleep_after_every_failure (c : Client) (req : APIRequest) (envs : Nat → Env) (N : Nat)
    (hN : c.MaxRetries = (N : Int))
    (hfail : ∀ k, k ≤ N → ((c.send req (envs k)).err).isSome = true) :
    countSleeps (c.SendRequest req envs).trace = N + 1 := by
  have hiter : iterCount c.MaxRetries = N + 1 := by
    unfold iterCount
    rw [hN]
    omega
  unfold Client.SendRequest
  rw [hiter]
  have h := aux_all_fail c req envs N 0 none none
    (by intro j hj; rw [Nat.zero_add]; exact hfail j hj)
  exact h.2.2.2

/-- Witness for the amended C2 at `maxRetries = 0`. -/
theorem claim2_witness :
    countSleeps ((NewClient "http://b" false 0 9).SendRequest reqW (fun _ => failEnv)).trace = 0 + 1 :=
  claim2_sleep_after_every_failure (NewClient "http://b" false 0 9) reqW (fun _ => failEnv) 0 rfl
    (fun _ _ =>
      (by decide : (((NewClient "http://b" false 0 9).send reqW failEnv).err).isSome = true))

/-- Claim C3: when the attempt's round trip and body read complete,
`send` returns the response with a nil error whatever the status code
(here quantified over any `resp`, e.g. 404 or 500), and `SendRequest`
returns it after exactly one attempt. -/
theorem claim3_status_ignored (c : Client) (req : APIRequest) (env : Env)
    (rb : List Nat) (resp : HttpResponse) (body : List Nat)
    (h0 : 0 ≤ c.MaxRetries)
    (hm : marshalStep req env = .ok rb)
    (hn : env.newRequestCheck req.Method (c.BaseURL ++ req.Endpoint) = none)
    (hd : env.doReq (buildRequest c req rb) = .ok resp)
    (hr : env.readAll resp = .ok body) :
    (c.send req env).err = none ∧
    (c.send req env).resp = some ⟨resp.StatusCode, resp.Header, body⟩ ∧
    (c.SendRequest req (fun _ => env)).err = none ∧
    (c.SendRequest req (fun _ => env)).resp = some ⟨resp.StatusCode, resp.Header, body⟩ ∧
    countAttempts (c.SendRequest req (fun _ => env)).trace = 1 := by
  have hs := send_success_eq c req env rb resp body hm hn hd hr
  have hpos : 0 < iterCount c.MaxRetries := by
    unfold iterCount
    omega
  have h := aux_first_success c req (fun _ => env) 0 (iterCount c.MaxRetries) 0 none none hpos
    (by intro j hj; omega)
    hs.1
  exact ⟨hs.1, hs.2, h.2.1, h.1.trans hs.2, h.2.2.1⟩

/-- Witness for C3: an HTTP 500 answer is a success for `send`. -/
theorem claim3_witness :
    ((NewClient "http://a" false 3 5).send reqW okEnv).err = none ∧
    ((NewClient "http://a" false 3 5).send reqW okEnv).resp =
      some ⟨500, [], [104, 105]⟩ ∧
    ((NewClient "http://a" false 3 5).SendRequest reqW (fun _ => okEnv)).err = none ∧
    ((NewClient "http://a" false 3 5).SendRequest reqW (fun _ => okEnv)).resp =
      some ⟨500, [], [104, 105]⟩ ∧
    countAttempts ((NewClient "http://a" false 3 5).SendRequest reqW (fun _ => okEnv)).trace = 1 :=
  claim3_status_ignored (NewClient "http://a" false 3 5) reqW okEnv []
    ⟨500, "500 Internal Server Error", []⟩ [104, 105] (by decide) rfl rfl rfl rfl

/-- Claim C4: the retry loop never inspects which error occurred — two
runs whose attempts fail at exactly the same positions (whatever the
errors) make the same number of attempts and sleeps — and when every
attempt fails, the error finally returned is exactly the last attempt's
error, the earlier ones being discarded. -/
theorem claim4_error_blind_retry (c : Client) (req : APIRequest) (envs envs2 : Nat → Env)
    (hsame : ∀ k, ((c.send req (envs k)).err).isSome = ((c.send req (envs2 k)).err).isSome) :
    (countAttempts (c.SendRequest req envs).trace = countAttempts (c.SendRequest req envs2).trace ∧
     countSleeps (c.SendRequest req envs).trace = countSleeps (c.SendRequest req envs2).trace) ∧
    ∀ N : Nat, c.MaxRetries = (N : Int) →
      (∀ k, k ≤ N → ((c.send req (envs k)).err).isSome = true) →
      (c.SendRequest req envs).err = (c.send req (envs N)).err := by
  constructor
  · exact aux_error_blind c req envs envs2 hsame (iterCount c.MaxRetries) 0 none none none none
  · intro N hN hfail
    have hiter : iterCount c.MaxRetries = N + 1 := by
      unfold iterCount
      rw [hN]
      omega
    unfold Client.SendRequest
    rw [hiter]
    have h := aux_all_fail c req envs N 0 none none
      (by intro j hj; rw [Nat.zero_add]; exact hfail j hj)
    rw [Nat.zero_add] at h
    exact h.2.1

/-- Witness for C4: a network failure and a marshalling failure drive the
loop identically, and the returned error is the last attempt's. -/
theorem claim4_witness :
    countAttempts ((NewClient "http://a" false 0 5).SendRequest reqB (fun _ => failEnv)).trace =
      countAttempts ((NewClient "http://a" false 0 5).SendRequest reqB (fun _ => badMarshalEnv)).trace ∧
    ((NewClient "http://a" false 0 5).SendRequest reqB (fun _ => failEnv)).err =
      ((NewClient "http://a" false 0 5).send reqB failEnv).err := by
  have h := claim4_error_blind_retry (NewClient "http://a" false 0 5) reqB
    (fun _ => failEnv) (fun _ => badMarshalEnv)
    (fun _ =>
      (by decide : (((NewClient "http://a" false 0 5).send reqB failEnv).err).isSome =
        (((NewClient "http://a" false 0 5).send reqB badMarshalEnv).err).isSome))
  exact ⟨h.1.1, h.2 0 rfl (fun _ _ =>
    (by decide : (((NewClient "http://a" false 0 5).send reqB failEnv).err).isSome = true))⟩

/-- Claim C5: if the `k+1`-st call to `send` (1-indexed; `k` is the
0-indexed attempt, `k ≤ maxRetries`) is the first to return a nil error,
`SendRequest` performs exactly `k+1` attempts, returns that attempt's
response with a nil error, and sleeps only the `k` times that followed
the failed attempts — never after the successful one. -/
theorem claim5_first_success (c : Client) (req : APIRequest) (envs : Nat → Env) (k : Nat)
    (hk : (k : Int) ≤ c.MaxRetries)
    (hfail : ∀ j, j < k → ((c.send req (envs j)).err).isSome = true)
    (hsucc : (c.send req (envs k)).err = none) :
    countAttempts (c.SendRequest req envs).trace = k + 1 ∧
    (c.SendRequest req envs).resp = (c.send req (envs k)).resp ∧
    (c.SendRequest req envs).err = none ∧
    countSleeps (c.SendRequest req envs).trace = k := by
  have hklt : k < iterCount c.MaxRetries := by
    unfold iterCount
    omega
  have h := aux_first_success c req envs k (iterCount c.MaxRetries) 0 none none hklt
    (by intro j hj; rw [Nat.zero_add]; exact hfail j hj)
    (by rw [Nat.zero_add]; exact hsucc)
  rw [Nat.zero_add] at h
  exact ⟨h.2.2.1, h.1, h.2.1, h.2.2.2⟩

/-- Witness for C5: failure on attempt 0, success on attempt 1. -/
theorem claim5_witness :
    countAttempts ((NewClient "http://a" false 2 5).SendRequest reqW mixedEnvs).trace = 1 + 1 ∧
    ((NewClient "http://a" false 2 5).SendRequest reqW mixedEnvs).resp =
      ((NewClient "http://a" false 2 5).send reqW (mixedEnvs 1)).resp ∧
    ((NewClient "http://a" false 2 5).SendRequest reqW mixedEnvs).err = none ∧
    countSleeps ((NewClient "http://a" false 2 5).SendRequest reqW mixedEnvs).trace = 1 :=
  claim5_first_success (NewClient "http://a" false 2 5) reqW mixedEnvs 1 (by decide)
    (fun j hj => by
      have hj0 : j = 0 := by omega
      subst hj0
      decide)
    (by decide)

/-- Claim C6: every network call `send` performs targets exactly
`c.BaseURL ++ req.Endpoint` — plain string concatenation, with no slash
normalisation, insertion or deduplication. -/
theorem claim6_url_concat (c : Client) (req : APIRequest) (env : Env) (r : HttpRequest)
    (hmem : Effect.netCall r ∈ (c.send req env).trace) :
    r.URL = c.BaseURL ++ req.Endpoint := by
  rcases send_trace_mem c req env _ hmem with h1 | ⟨h2, _⟩ | ⟨r', h3, hurl⟩
  · simp at h1
  · simp [isLogEffect] at h2
  · injection h3 with h4
    rw [h4]
    exact hurl

/-- Witness for C6: a trailing slash in the base URL and a leading slash
in the endpoint survive as a double slash. -/
theorem claim6_witness :
    (buildRequest (NewClient "http://a/" false 0 5) ⟨"GET", "/b", [], none⟩ []).URL =
      "http://a//b" := by
  have h := claim6_url_concat (NewClient "http://a/" false 0 5) ⟨"GET", "/b", [], none⟩ okEnv
    (buildRequest (NewClient "http://a/" false 0 5) ⟨"GET", "/b", [], none⟩ []) (by decide)
  rw [h]
  decide

/-- Claim C7: `send` invokes the JSON marshaller iff `req.Body` is
non-nil; a marshalling failure makes `send` return a nil response and
that error with a trace of just the marshal invocation — no transport
request outcome is consulted, no log line and no network call happens
(for every environment, i.e. whatever the later stages would do); and a
nil body makes the marshalling step infallibly return the nil byte
slice. -/
theorem claim7_marshal_iff (c : Client) (req : APIRequest) (env : Env) :
    (Effect.marshalCall ∈ (c.send req env).trace ↔ req.Body.isSome = true) ∧
    (∀ e : GoError, marshalStep req env = .error e →
      c.send req env = ⟨none, some e, [Effect.marshalCall], c⟩) ∧
    (req.Body = none → marshalStep req env = .ok []) := by
  refine ⟨send_marshalCall_iff c req env, ?_, ?_⟩
  · intro e hm
    exact send_marshal_error c req env e hm
  · intro hB
    unfold marshalStep
    rw [hB]

/-- Witness for C7: a failing marshaller on a non-nil body. -/
theorem claim7_witness :
    (NewClient "http://a" false 0 5).send reqB badMarshalEnv =
      ⟨none, some (GoError.marshalErr "unsupported type"), [Effect.marshalCall],
        NewClient "http://a" false 0 5⟩ :=
  (claim7_marshal_iff (NewClient "http://a" false 0 5) reqB badMarshalEnv).2.1
    (GoError.marshalErr "unsupported type") rfl

/-- Claim C8: with `c.Debug = false`, neither a single `send` nor any
attempt of `SendRequest` emits a request or response dump. -/
theorem claim8_debug_off_silent (c : Client) (req : APIRequest) (env : Env) (envs : Nat → Env)
    (hD : c.Debug = false) :
    (∀ x ∈ (c.send req env).trace, isLogEffect x = false) ∧
    (∀ x ∈ (c.SendRequest req envs).trace, isLogEffect x = false) := by
  refine ⟨send_no_logs c req env hD, ?_⟩
  intro x hx
  exact aux_no_logs c req envs hD (iterCount c.MaxRetries) 0 none none x hx

/-- Witness for C8: no request dump appears in a debug-off run. -/
theorem claim8_witness :
    Effect.logRequest "GET" "http://a/x" [] [] ∉
      ((NewClient "http://a" false 1 5).SendRequest reqW (fun _ => failEnv)).trace := by
  intro hmem
  have h := (claim8_debug_off_silent (NewClient "http://a" false 1 5) reqW okEnv
    (fun _ => failEnv) rfl).2 _ hmem
  simp [isLogEffect] at h

/-- Claim C9: no field of the client is modified by `send` or
`SendRequest` (the returned client state is the receiver unchanged), and
`send` is deterministic: equal client, request and transport behaviour
give equal results. -/
theorem claim9_no_mutation (c : Client) (req : APIRequest) (env : Env) (envs : Nat → Env) :
    (c.send req env).client = c ∧
    (c.SendRequest req envs).client = c ∧
    ∀ c2 req2 env2, c2 = c → req2 = req → env2 = env →
      c2.send req2 env2 = c.send req env := by
  refine ⟨send_client_eq c req env, aux_client_eq c req envs (iterCount c.MaxRetries) 0 none none, ?_⟩
  intro c2 req2 env2 h1 h2 h3
  rw [h1, h2, h3]

/-- Witness for C9 on a concrete client and environment. -/
theorem claim9_witness :
    ((NewClient "http://a" false 2 5).send reqW okEnv).client = NewClient "http://a" false 2 5 ∧
    ((NewClient "http://a" false 2 5).SendRequest reqW (fun _ => failEnv)).client =
      NewClient "http://a" false 2 5 ∧
    (NewClient "http://a" false 2 5).send reqW okEnv =
      (NewClient "http://a" false 2 5).send reqW okEnv := by
  have h := claim9_no_mutation (NewClient "http://a" false 2 5) reqW okEnv (fun _ => failEnv)
  exact ⟨h.1, h.2.1, h.2.2 _ _ _ rfl rfl rfl⟩

/-- Claim C10: with `MaxRetries < 0` the loop body never runs:
`SendRequest` returns a nil response and nil error with no attempt and
no sleep. -/
theorem claim10_negative_retries (c : Client) (req : APIRequest) (envs : Nat → Env)
    (hneg : c.MaxRetries < 0) :
    c.SendRequest req envs = ⟨none, none, [], c⟩ ∧
    countAttempts (c.SendRequest req envs).trace = 0 ∧
    countSleeps (c.SendRequest req envs).trace = 0 := by
  have hiter : iterCount c.MaxRetries = 0 := by
    unfold iterCount
    omega
  unfold Client.SendRequest
  rw [hiter, sendRequestAux_zero]
  exact ⟨rfl, rfl, rfl⟩

/-- Witness for C10 at `maxRetries = -1`. -/
theorem claim10_witness :
    (NewClient "http://a" false (-1) 5).SendRequest reqW (fun _ => failEnv) =
      ⟨none, none, [], NewClient "http://a" false (-1) 5⟩ :=
  (claim10_negative_retries (NewClient "http://a" false (-1) 5) reqW (fun _ => failEnv)
    (by decide)).1

end ApiClient
